import Mathlib

/-!
A shallow embedding of the Vanish temporary-email API client
(src/vanish.py) together with proofs of the specification claims.

Modelling conventions:
* Python strings are Lean `String`s; the byte level (UTF-8) is made
  explicit where the source goes through bytes (`urllib.parse.quote`).
* JSON values are modelled by the inductive `Json`; successful HTTP
  responses carry the already-parsed JSON value (plus the raw body for
  `raw_response=True` requests).
* Python exceptions split in two: `VanishError` (the library's own error
  class, carrying the message object and an optional HTTP status code)
  and uncaught interpreter exceptions (`KeyError`, `AttributeError`,
  `ValueError`, ...), modelled by `Outcome.exn` with the exception name.
* The HTTP transport is a function `HttpRequest → HttpResult` supplied
  as a parameter; `urllib.request.urlopen` raising `HTTPError` on a
  non-2xx status is the `HttpResult.httpError` case, and transport-level
  failures (`URLError`) are `HttpResult.connError`.
-/

/-! ## Percent-encoding (`urllib.parse.quote(address, safe="")`) -/

/-- UTF-8 encoding of one scalar value, written arithmetically. -/
def utf8Bytes (c : Char) : List Nat :=
  if c.toNat < 128 then [c.toNat]
  else if c.toNat < 2048 then [192 + c.toNat / 64, 128 + c.toNat % 64]
  else if c.toNat < 65536 then
    [224 + c.toNat / 4096, 128 + c.toNat / 64 % 64, 128 + c.toNat % 64]
  else
    [240 + c.toNat / 262144, 128 + c.toNat / 4096 % 64, 128 + c.toNat / 64 % 64,
      128 + c.toNat % 64]

/-- The UTF-8 bytes of a Python string (what `str.encode("utf-8")` yields,
and what `urllib.parse.quote` operates on). -/
def strBytes (s : String) : List Nat :=
  s.data.flatMap utf8Bytes

/-- The characters `urllib.parse.quote` never escapes (`ALWAYS_SAFE`):
letters, digits, and the marks underscore, dot, dash, tilde.  With
`safe=""` nothing else is kept. -/
def isSafeByte (b : Nat) : Bool :=
  (65 ≤ b && b ≤ 90) || (97 ≤ b && b ≤ 122) || (48 ≤ b && b ≤ 57) ||
    b == 45 || b == 46 || b == 95 || b == 126

/-- Upper-case hexadecimal digit, as emitted by `urllib.parse.quote`. -/
def hexDigitCh (n : Nat) : Char :=
  if n < 10 then Char.ofNat (48 + n) else Char.ofNat (55 + n)

/-- Percent-encoding of a single byte with `safe=""`. -/
def quoteByte (b : Nat) : List Char :=
  if isSafeByte b then [Char.ofNat b]
  else ['%', hexDigitCh (b / 16), hexDigitCh (b % 16)]

/-- Model of `urllib.parse.quote(s, safe="")`. -/
def quote (s : String) : String :=
  String.mk ((strBytes s).flatMap quoteByte)

/-- Percent-encoding of a single byte as used by `urllib.parse.urlencode`
(`quote_plus`): like `quote` with `safe=""` but a space becomes a plus. -/
def quotePlusByte (b : Nat) : List Char :=
  if b = 32 then ['+'] else quoteByte b

/-- Model of `urllib.parse.quote_plus(s)`. -/
def quotePlus (s : String) : String :=
  String.mk ((strBytes s).flatMap quotePlusByte)

/-- Value of a hexadecimal digit character, if it is one. -/
def hexVal? (c : Char) : Option Nat :=
  if 48 ≤ c.toNat ∧ c.toNat ≤ 57 then some (c.toNat - 48)
  else if 65 ≤ c.toNat ∧ c.toNat ≤ 70 then some (c.toNat - 55)
  else if 97 ≤ c.toNat ∧ c.toNat ≤ 102 then some (c.toNat - 87)
  else none

/-- Percent-decoding to bytes, following `urllib.parse.unquote`: a `%`
followed by two hex digits becomes that byte, any other character
contributes its UTF-8 bytes (malformed escapes pass through literally). -/
def unquoteBytes : List Char → List Nat
  | [] => []
  | '%' :: all@(c1 :: c2 :: rest2) =>
    match hexVal? c1, hexVal? c2 with
    | some h1, some h2 => (16 * h1 + h2) :: unquoteBytes rest2
    | _, _ => utf8Bytes '%' ++ unquoteBytes all
  | c :: rest => utf8Bytes c ++ unquoteBytes rest

/-- UTF-8 decoding of one leading scalar value: the character and the
remaining bytes. -/
def decodeChar : List Nat → Option (Char × List Nat)
  | [] => none
  | b0 :: rest =>
    if b0 < 128 then some (Char.ofNat b0, rest)
    else if b0 < 192 then none
    else if b0 < 224 then
      match rest with
      | b1 :: rest1 =>
        if 128 ≤ b1 ∧ b1 < 192 then
          some (Char.ofNat ((b0 - 192) * 64 + (b1 - 128)), rest1)
        else none
      | [] => none
    else if b0 < 240 then
      match rest with
      | b1 :: b2 :: rest2 =>
        if (128 ≤ b1 ∧ b1 < 192) ∧ (128 ≤ b2 ∧ b2 < 192) then
          some (Char.ofNat ((b0 - 224) * 4096 + (b1 - 128) * 64 + (b2 - 128)), rest2)
        else none
      | _ => none
    else
      match rest with
      | b1 :: b2 :: b3 :: rest3 =>
        if (128 ≤ b1 ∧ b1 < 192) ∧ (128 ≤ b2 ∧ b2 < 192) ∧ (128 ≤ b3 ∧ b3 < 192) then
          some (Char.ofNat ((b0 - 240) * 262144 + (b1 - 128) * 4096 + (b2 - 128) * 64 + (b3 - 128)),
            rest3)
        else none
      | _ => none

/-- UTF-8 decoding of a byte list back to characters (fuelled by the
number of bytes; each character consumes at least one byte). -/
def utf8DecodeAux : Nat → List Nat → Option (List Char)
  | _, [] => some []
  | 0, _ :: _ => none
  | fuel + 1, b0 :: rest =>
    match decodeChar (b0 :: rest) with
    | none => none
    | some (c, rest2) => (utf8DecodeAux fuel rest2).map (fun cs => c :: cs)

def utf8Decode (bs : List Nat) : Option (List Char) :=
  utf8DecodeAux bs.length bs

/-- Percent-decode a path segment back to a string (unquote, then UTF-8
decode), the inverse direction of `quote`. -/
def percentDecode (s : String) : Option String :=
  (utf8Decode (unquoteBytes s.data)).map String.mk

/-! ## JSON values (post-`json.loads`) -/

/-- A parsed JSON value.  Object fields are listed with distinct keys, as
produced by `json.loads`. -/
inductive Json where
  | null
  | bool (b : Bool)
  | num (n : Int)
  | str (s : String)
  | arr (elems : List Json)
  | obj (fields : List (String × Json))

/-- Dictionary lookup on the fields of a parsed JSON object. -/
def lookupField (fs : List (String × Json)) (k : String) : Option Json :=
  (fs.find? (fun p => p.1 == k)).map (fun p => p.2)

/-! ## Errors and outcomes -/

/-- The library's error class (`VanishError`).  Python stores the message
argument unchanged, so it is kept as a JSON value (the `error` field of an
HTTP error body is passed through as-is); for generated messages it is a
`Json.str`.  `status_code` is `none` for connection-level failures. -/
structure VanishError where
  message : Json
  status_code : Option Nat

/-- Result of running one client operation: a value, a raised
`VanishError`, or an uncaught Python exception (by name). -/
inductive Outcome (α : Type) where
  | ok (a : α)
  | err (e : VanishError)
  | exn (name : String)

/-- Exception propagation, mirroring Python control flow. -/
def Outcome.bind {α β : Type} : Outcome α → (α → Outcome β) → Outcome β
  | .ok a, f => f a
  | .err e, _ => .err e
  | .exn n, _ => .exn n

/-! ## Timestamps

`datetime.fromisoformat(s.replace("Z", "+00:00"))`.  A Python `datetime`
is modelled by its components plus an optional timezone offset in
minutes; `tzOffsetMinutes = none` is a naive datetime, `some 0` is UTC.
The `fromisoformat` model covers the grammar relevant to the wire format
of §6 (whole-second timestamps, optional `±HH:MM` offset); unparsable
input maps to `none` (Python raises `ValueError`). -/

structure PyDatetime where
  year : Nat
  month : Nat
  day : Nat
  hour : Nat
  minute : Nat
  second : Nat
  tzOffsetMinutes : Option Int

def isLeapYear (y : Nat) : Bool :=
  y % 4 == 0 && (y % 100 != 0 || y % 400 == 0)

def daysInMonth (y m : Nat) : Nat :=
  if m = 2 then (if isLeapYear y then 29 else 28)
  else if m = 4 ∨ m = 6 ∨ m = 9 ∨ m = 11 then 30
  else 31

/-- Read exactly two decimal digits. -/
def parse2 : List Char → Option (Nat × List Char)
  | c1 :: c2 :: rest =>
    if (48 ≤ c1.toNat ∧ c1.toNat ≤ 57) ∧ (48 ≤ c2.toNat ∧ c2.toNat ≤ 57) then
      some ((c1.toNat - 48) * 10 + (c2.toNat - 48), rest)
    else none
  | _ => none

/-- Read exactly four decimal digits. -/
def parse4 : List Char → Option (Nat × List Char)
  | c1 :: c2 :: c3 :: c4 :: rest =>
    if (48 ≤ c1.toNat ∧ c1.toNat ≤ 57) ∧ (48 ≤ c2.toNat ∧ c2.toNat ≤ 57) ∧
        (48 ≤ c3.toNat ∧ c3.toNat ≤ 57) ∧ (48 ≤ c4.toNat ∧ c4.toNat ≤ 57) then
      some ((c1.toNat - 48) * 1000 + (c2.toNat - 48) * 100 +
        (c3.toNat - 48) * 10 + (c4.toNat - 48), rest)
    else none
  | _ => none

/-- Consume one expected character. -/
def expectCh (c : Char) : List Char → Option (List Char)
  | c2 :: rest => if c2 = c then some rest else none
  | [] => none

/-- Range validation performed by the `datetime` constructor. -/
def mkDT (y mo d h mi s : Nat) (tz : Option Int) : Option PyDatetime :=
  if 1 ≤ y ∧ y ≤ 9999 ∧ 1 ≤ mo ∧ mo ≤ 12 ∧ 1 ≤ d ∧ d ≤ daysInMonth y mo ∧
      h ≤ 23 ∧ mi ≤ 59 ∧ s ≤ 59 then
    some ⟨y, mo, d, h, mi, s, tz⟩
  else none

/-- Parse a `±HH:MM` timezone offset (sign already consumed). -/
def parseOffset (sign : Char) (cs : List Char) : Option Int :=
  match parse2 cs with
  | none => none
  | some (oh, cs2) =>
    match expectCh ':' cs2 with
    | none => none
    | some cs3 =>
      match parse2 cs3 with
      | none => none
      | some (om, cs4) =>
        match cs4 with
        | [] =>
          if oh ≤ 23 ∧ om ≤ 59 then
            some (if sign = '-' then -((oh * 60 + om : Nat) : Int) else ((oh * 60 + om : Nat) : Int))
          else none
        | _ => none

/-- Parse the optional timezone part at the end of an ISO string. -/
def parseTzPart (y mo d h mi s : Nat) : List Char → Option PyDatetime
  | [] => mkDT y mo d h mi s none
  | sign :: cs =>
    if sign = '+' ∨ sign = '-' then
      match parseOffset sign cs with
      | some off => mkDT y mo d h mi s (some off)
      | none => none
    else none

/-- Parse the optional `:SS` part, then the timezone part. -/
def parseSecPart (y mo d h mi : Nat) : List Char → Option PyDatetime
  | ':' :: cs =>
    match parse2 cs with
    | some (s, cs2) => parseTzPart y mo d h mi s cs2
    | none => none
  | cs => parseTzPart y mo d h mi 0 cs

/-- Model of `datetime.fromisoformat` on the wire-relevant grammar. -/
def fromisoChars (cs : List Char) : Option PyDatetime :=
  match parse4 cs with
  | none => none
  | some (y, cs1) =>
    match expectCh '-' cs1 with
    | none => none
    | some cs2 =>
      match parse2 cs2 with
      | none => none
      | some (mo, cs3) =>
        match expectCh '-' cs3 with
        | none => none
        | some cs4 =>
          match parse2 cs4 with
          | none => none
          | some (d, cs5) =>
            match cs5 with
            | [] => mkDT y mo d 0 0 0 none
            | _ =>
              match expectCh 'T' cs5 with
              | none => none
              | some cs6 =>
                match parse2 cs6 with
                | none => none
                | some (h, cs7) =>
                  match expectCh ':' cs7 with
                  | none => none
                  | some cs8 =>
                    match parse2 cs8 with
                    | none => none
                    | some (mi, cs9) => parseSecPart y mo d h mi cs9

/-- Model of `s.replace("Z", "+00:00")` (every occurrence replaced). -/
def replaceZ : List Char → List Char
  | [] => []
  | c :: rest =>
    if c = 'Z' then '+' :: '0' :: '0' :: ':' :: '0' :: '0' :: replaceZ rest
    else c :: replaceZ rest

/-- The timestamp normalization both `list_emails` and `get_email` apply:
`datetime.fromisoformat(s.replace("Z", "+00:00"))`. -/
def parseReceivedAt (s : String) : Option PyDatetime :=
  fromisoChars (replaceZ s.data)

/-! ## Client configuration and the HTTP layer (`VanishClient._request`) -/

structure ClientConfig where
  base_url : String
  api_key : Option String
  timeout : Nat

/-- Model of Python `s.rstrip("/")`. -/
def rstripSlash (s : String) : String :=
  String.mk ((s.data.reverse.dropWhile (fun c => c = '/')).reverse)

/-- The `VanishClient.__init__` constructor. -/
def mkVanishClient (base_url : String) (api_key : Option String) (timeout : Nat) :
    ClientConfig :=
  ⟨rstripSlash base_url, api_key, timeout⟩

structure HttpRequest where
  method : String
  url : String
  headers : List (String × String)
  body : Option Json

/-- A 2xx response as observed through `urlopen`: the raw body, the result
of `json.loads` on it (`none` when undecodable), and the headers. -/
structure HttpSuccess where
  raw : String
  json : Option Json
  headers : List (String × String)

/-- What `urllib.request.urlopen` does for one request: a 2xx response, an
`HTTPError` (non-2xx status, with reason phrase and the `json.loads` of
the error body when decodable), or a `URLError` (DNS failure, refused
connection, timeout expiry, with the rendered reason). -/
inductive HttpResult where
  | success (s : HttpSuccess)
  | httpError (code : Nat) (reason : String) (body : Option Json)
  | connError (reason : String)

/-- Model of `urllib.parse.urlencode` over the params whose value is not
`None` (the dict comprehension at vanish.py:106). -/
def urlencodeQuery (params : List (String × Option String)) : String :=
  String.intercalate ("&")
    (params.filterMap (fun p => p.2.map (fun v => quotePlus p.1 ++ "=" ++ quotePlus v)))

/-- URL construction of `_request` (vanish.py:103-108). -/
def buildUrl (base path : String) (params : List (String × Option String)) : String :=
  let url := base ++ path
  if params.isEmpty then url
  else
    let q := urlencodeQuery params
    if q = "" then url else url ++ "?" ++ q

/-- Headers of `_request` (vanish.py:110-112). -/
def buildHeaders (cfg : ClientConfig) : List (String × String) :=
  match cfg.api_key with
  | some k => [("Content-Type", "application/json"), ("Authorization", "Bearer " ++ k)]
  | none => [("Content-Type", "application/json")]

/-- The `urllib.request.Request` that `_request` sends. -/
def buildRequest (cfg : ClientConfig) (method path : String)
    (params : List (String × Option String)) (body : Option Json) : HttpRequest :=
  ⟨method, buildUrl cfg.base_url path params, buildHeaders cfg, body⟩

/-- Python `str(e)` for `urllib.error.HTTPError`. -/
def httpErrStr (code : Nat) (reason : String) : String :=
  "HTTP Error " ++ toString code ++ ": " ++ reason

/-- The exception handling of `_request` (vanish.py:118-131): non-2xx →
`VanishError(message, e.code)` where `message` is the `error` field of the
JSON body when the body decodes to a dict (otherwise `str(e)`); a body
that decodes to a non-dict JSON value makes `error_body.get` blow up with
`AttributeError`; `URLError` → `VanishError("Connection error: ...")`
with no status code. -/
def handleHttp : HttpResult → Outcome HttpSuccess
  | .success s => .ok s
  | .httpError code reason body =>
    match body with
    | none => .err ⟨.str (httpErrStr code reason), some code⟩
    | some (.obj fs) => .err ⟨(lookupField fs ("error")).getD (.str (httpErrStr code reason)), some code⟩
    | some _ => .exn ("AttributeError")
  | .connError reason => .err ⟨.str ("Connection error: " ++ reason), none⟩

/-- `_request` with `raw_response=False`: on success the body must parse
as JSON (`json.loads` raises otherwise, uncaught). -/
def requestJson (t : HttpRequest → HttpResult) (cfg : ClientConfig) (method path : String)
    (params : List (String × Option String)) (body : Option Json) : Outcome Json :=
  (handleHttp (t (buildRequest cfg method path params body))).bind fun s =>
    match s.json with
    | some j => .ok j
    | none => .exn ("JSONDecodeError")

/-- `_request` with `raw_response=True`: returns `(resp.read(), resp.headers)`. -/
def requestRaw (t : HttpRequest → HttpResult) (cfg : ClientConfig) (method path : String)
    (params : List (String × Option String)) (body : Option Json) :
    Outcome (String × List (String × String)) :=
  (handleHttp (t (buildRequest cfg method path params body))).bind fun s =>
    .ok (s.raw, s.headers)

/-! ## Domain types (the dataclasses) -/

structure AttachmentMeta where
  id : String
  name : String
  type : String
  size : Int

structure EmailSummary where
  id : String
  sender : String
  subject : String
  text_preview : String
  received_at : PyDatetime
  has_attachments : Bool

structure EmailDetail where
  id : String
  sender : String
  «to» : List String
  subject : String
  html : String
  text : String
  received_at : PyDatetime
  has_attachments : Bool
  attachments : List AttachmentMeta

structure PaginatedEmailList where
  data : List EmailSummary
  next_cursor : Option String
  total : Int

/-! ## Response deserialization helpers

`resp[k]` raises `KeyError` when the key is absent (`TypeError` when the
value is not a dict at all); `resp.get(k)` returns `None` for an absent
key or a JSON `null` value (indistinguishable in Python); `resp.get(k, d)`
returns the stored value (even `null`) when the key is present, else `d`.
The Python code never checks the types of extracted values; we model
well-typed server values and send shape mismatches to a `TypeError`
exception, which no claim exercises. -/

def getItem (j : Json) (k : String) : Outcome Json :=
  match j with
  | .obj fs =>
    match lookupField fs k with
    | some v => .ok v
    | none => .exn ("KeyError")
  | _ => .exn ("TypeError")

def getOpt (j : Json) (k : String) : Outcome (Option Json) :=
  match j with
  | .obj fs =>
    match lookupField fs k with
    | some .null => .ok none
    | some v => .ok (some v)
    | none => .ok none
  | _ => .exn ("AttributeError")

def getDefault (j : Json) (k : String) (d : Json) : Outcome Json :=
  match j with
  | .obj fs => .ok ((lookupField fs k).getD d)
  | _ => .exn ("AttributeError")

def asStr : Json → Outcome String
  | .str s => .ok s
  | _ => .exn ("TypeError")

def asInt : Json → Outcome Int
  | .num n => .ok n
  | _ => .exn ("TypeError")

def asBool : Json → Outcome Bool
  | .bool b => .ok b
  | _ => .exn ("TypeError")

def asArr : Json → Outcome (List Json)
  | .arr xs => .ok xs
  | _ => .exn ("TypeError")

def asStrList : List Json → Outcome (List String)
  | [] => .ok []
  | .str s :: rest => (asStrList rest).bind fun ss => .ok (s :: ss)
  | _ => .exn ("TypeError")

def asOptCursor : Option Json → Outcome (Option String)
  | none => .ok none
  | some (.str s) => .ok (some s)
  | some _ => .exn ("TypeError")

/-- Parse the receivedAt string; `fromisoformat` raises `ValueError` on
malformed input. -/
def asReceivedAt (j : Json) : Outcome PyDatetime :=
  (asStr j).bind fun s =>
    match parseReceivedAt s with
    | some dt => .ok dt
    | none => .exn ("ValueError")

/-- One element of the `data` array (vanish.py:191-201). -/
def parseSummary (e : Json) : Outcome EmailSummary :=
  (getItem e ("id")).bind fun v1 => (asStr v1).bind fun i =>
  (getItem e ("from")).bind fun v2 => (asStr v2).bind fun sender =>
  (getItem e ("subject")).bind fun v3 => (asStr v3).bind fun subj =>
  (getItem e ("textPreview")).bind fun v4 => (asStr v4).bind fun prev =>
  (getItem e ("receivedAt")).bind fun v5 => (asReceivedAt v5).bind fun dt =>
  (getItem e ("hasAttachments")).bind fun v6 => (asBool v6).bind fun hA =>
  .ok ⟨i, sender, subj, prev, dt, hA⟩

def parseSummaries : List Json → Outcome (List EmailSummary)
  | [] => .ok []
  | e :: rest =>
    (parseSummary e).bind fun s =>
    (parseSummaries rest).bind fun ss => .ok (s :: ss)

/-- One element of the `attachments` array (vanish.py:221-229). -/
def parseAttachment (a : Json) : Outcome AttachmentMeta :=
  (getItem a ("id")).bind fun v1 => (asStr v1).bind fun i =>
  (getItem a ("name")).bind fun v2 => (asStr v2).bind fun nm =>
  (getItem a ("type")).bind fun v3 => (asStr v3).bind fun ty =>
  (getItem a ("size")).bind fun v4 => (asInt v4).bind fun sz =>
  .ok ⟨i, nm, ty, sz⟩

def parseAttachments : List Json → Outcome (List AttachmentMeta)
  | [] => .ok []
  | a :: rest =>
    (parseAttachment a).bind fun m =>
    (parseAttachments rest).bind fun ms => .ok (m :: ms)

/-! ## The operations of `VanishClient` -/

def list_emailsPath (address : String) : String :=
  "/mailbox/" ++ quote address

def get_emailPath (email_id : String) : String :=
  "/email/" ++ email_id

def get_attachmentPath (email_id attachment_id : String) : String :=
  "/email/" ++ email_id ++ "/attachments/" ++ attachment_id

def delete_emailPath (email_id : String) : String :=
  "/email/" ++ email_id

def delete_mailboxPath (address : String) : String :=
  "/mailbox/" ++ quote address

def listEmailsParams (limit : Int) (cursor : Option String) : List (String × Option String) :=
  [("limit", some (toString limit)), ("cursor", cursor)]

/-- `VanishClient.get_domains`. -/
def get_domains (t : HttpRequest → HttpResult) (cfg : ClientConfig) : Outcome (List String) :=
  (requestJson t cfg ("GET") ("/domains") [] none).bind fun resp =>
  (getItem resp ("domains")).bind fun v =>
  (asArr v).bind fun xs => asStrList xs

/-- Python truthiness of an optional string argument (`if domain:`). -/
def truthy : Option String → Bool
  | some s => !(s == "")
  | none => false

/-- `VanishClient.generate_email`. -/
def generate_email (t : HttpRequest → HttpResult) (cfg : ClientConfig)
    (domain pfx : Option String) : Outcome String :=
  let fields :=
    (if truthy domain then [(("domain" : String), Json.str (domain.getD ""))] else []) ++
    (if truthy pfx then [(("prefix" : String), Json.str (pfx.getD ""))] else [])
  let body := if fields.isEmpty then none else some (Json.obj fields)
  (requestJson t cfg ("POST") ("/mailbox") [] body).bind fun resp =>
  (getItem resp ("email")).bind fun v => asStr v

/-- `VanishClient.list_emails`. -/
def list_emails (t : HttpRequest → HttpResult) (cfg : ClientConfig) (address : String)
    (limit : Int) (cursor : Option String) : Outcome PaginatedEmailList :=
  (requestJson t cfg ("GET") (list_emailsPath address) (listEmailsParams limit cursor) none).bind fun resp =>
  (getItem resp ("data")).bind fun v =>
  (asArr v).bind fun items =>
  (parseSummaries items).bind fun emails =>
  (getOpt resp ("nextCursor")).bind fun ncj =>
  (asOptCursor ncj).bind fun nc =>
  (getItem resp ("total")).bind fun tj =>
  (asInt tj).bind fun total =>
  .ok ⟨emails, nc, total⟩

/-- `VanishClient.get_email` (the attachments comprehension runs first,
as in the source). -/
def get_email (t : HttpRequest → HttpResult) (cfg : ClientConfig) (email_id : String) :
    Outcome EmailDetail :=
  (requestJson t cfg ("GET") (get_emailPath email_id) [] none).bind fun resp =>
  (getDefault resp ("attachments") (Json.arr [])).bind fun aj =>
  (asArr aj).bind fun ajs =>
  (parseAttachments ajs).bind fun atts =>
  (getItem resp ("id")).bind fun v1 => (asStr v1).bind fun i =>
  (getItem resp ("from")).bind fun v2 => (asStr v2).bind fun sender =>
  (getItem resp ("to")).bind fun v3 => (asArr v3).bind fun tjs =>
  (asStrList tjs).bind fun tos =>
  (getItem resp ("subject")).bind fun v4 => (asStr v4).bind fun subj =>
  (getItem resp ("html")).bind fun v5 => (asStr v5).bind fun htmlB =>
  (getItem resp ("text")).bind fun v6 => (asStr v6).bind fun textB =>
  (getItem resp ("receivedAt")).bind fun v7 => (asReceivedAt v7).bind fun dt =>
  (getItem resp ("hasAttachments")).bind fun v8 => (asBool v8).bind fun hA =>
  .ok ⟨i, sender, tos, subj, htmlB, textB, dt, hA, atts⟩

/-- `VanishClient.get_attachment`. -/
def get_attachment (t : HttpRequest → HttpResult) (cfg : ClientConfig)
    (email_id attachment_id : String) : Outcome (String × List (String × String)) :=
  requestRaw t cfg ("GET") (get_attachmentPath email_id attachment_id) [] none

/-- `VanishClient.delete_email`; Python returns `resp.get("success", False)`
unchanged, so the result is the raw JSON value. -/
def delete_email (t : HttpRequest → HttpResult) (cfg : ClientConfig) (email_id : String) :
    Outcome Json :=
  (requestJson t cfg ("DELETE") (delete_emailPath email_id) [] none).bind fun resp =>
  getDefault resp ("success") (Json.bool false)

/-- `VanishClient.delete_mailbox`; returns `resp.get("deleted", 0)`. -/
def delete_mailbox (t : HttpRequest → HttpResult) (cfg : ClientConfig) (address : String) :
    Outcome Json :=
  (requestJson t cfg ("DELETE") (delete_mailboxPath address) [] none).bind fun resp =>
  getDefault resp ("deleted") (Json.num 0)

/-! ## The polling helper (`VanishClient.poll_for_emails`)

Idealized clock: each `list_emails` check is instantaneous and the n-th
check happens at elapsed time `n * interval` (after `n` sleeps of
`interval` seconds each).  The loop guard `time.time() - start < timeout`
is therefore `n * interval < timeout`.  The server may answer differently
on every check, so the transport is a function of the check index.
`time.sleep` raises `ValueError` on a negative duration.  The recursion
is fuelled; with `interval ≥ 1` the fuel `timeout.toNat + 1` is provably
sufficient and the model never answers `none` (which stands for the
idealized loop never exiting, e.g. `interval = 0`). -/

/-- The value of the condition at vanish.py:312: `some d` when
`result.total > initial_count and result.data` holds (then `d` is
`result.data[0]`), else `none`. -/
def newMailAt (initial_count : Int) (r : PaginatedEmailList) : Option EmailSummary :=
  if initial_count < r.total then r.data.head? else none

inductive PollResult where
  | found (s : EmailSummary) (checkIdx : Nat)
  | timedOut (checks : Nat)
  | raised (e : VanishError) (checkIdx : Nat)
  | crashed (name : String) (checkIdx : Nat)

/-- Index of the check at which the poll ended (= number of completed
sleeps before returning). -/
def pollIdx : PollResult → Nat
  | .found _ n => n
  | .timedOut n => n
  | .raised _ n => n
  | .crashed _ n => n

def pollAux (check : Nat → Outcome PaginatedEmailList)
    (timeout interval initial_count : Int) : Nat → Nat → Option PollResult
  | 0, _ => none
  | fuel + 1, n =>
    if (n : Int) * interval < timeout then
      match check n with
      | .ok r =>
        match newMailAt initial_count r with
        | some d => some (.found d n)
        | none =>
          if interval < 0 then some (.crashed ("ValueError") n)
          else pollAux check timeout interval initial_count fuel (n + 1)
      | .err e => some (.raised e n)
      | .exn m => some (.crashed m n)
    else some (.timedOut n)

/-- The n-th `list_emails(address, limit=1)` call of the poll loop. -/
def pollCheck (transports : Nat → HttpRequest → HttpResult) (cfg : ClientConfig)
    (address : String) (n : Nat) : Outcome PaginatedEmailList :=
  list_emails (transports n) cfg address 1 none

/-- `VanishClient.poll_for_emails`.  `.found d n` models returning the
summary `d` at elapsed time `n * interval` (no sleep after the successful
check); `.timedOut n` models returning `None` at elapsed time
`n * interval`; `.raised`/`.crashed` model the exception propagating out
of the n-th check. -/
def poll_for_emails (transports : Nat → HttpRequest → HttpResult) (cfg : ClientConfig)
    (address : String) (timeout interval initial_count : Int) : Option PollResult :=
  pollAux (pollCheck transports cfg address) timeout interval initial_count
    (timeout.toNat + 1) 0

/-! ## Rendering wire timestamps (for stating claim C6) -/

/-- A decimal digit character. -/
def digitCh (k : Nat) : Char := Char.ofNat (48 + k)

def pad2 (n : Nat) : List Char := [digitCh (n / 10), digitCh (n % 10)]

def pad4 (n : Nat) : List Char :=
  [digitCh (n / 1000), digitCh (n / 100 % 10), digitCh (n / 10 % 10), digitCh (n % 10)]

/-- The date-time prefix of a wire timestamp (everything before the
timezone suffix). -/
def isoDatePart (y mo d h mi s : Nat) : List Char :=
  pad4 y ++ ('-' :: (pad2 mo ++ ('-' :: (pad2 d ++
    ('T' :: (pad2 h ++ (':' :: (pad2 mi ++ (':' :: pad2 s)))))))))

/-- A wire timestamp: ISO-8601 with a `Z` (UTC) suffix (spec §3, §6). -/
def isoZ (y mo d h mi s : Nat) : String :=
  String.mk (isoDatePart y mo d h mi s ++ ['Z'])

/-! ## Poll-loop predicates -/

/-- The loop condition at vanish.py:312 did not fire at this check and the
loop goes on to sleep: the result was a normal `PaginatedEmailList` with
no new mail. -/
def continuesPoll (initial_count : Int) (o : Outcome PaginatedEmailList) : Prop :=
  ∃ r, o = .ok r ∧ newMailAt initial_count r = none

/-! ## Concrete fixtures used by witnesses and counterexamples -/

def cfg0 : ClientConfig := ⟨"http://h", none, 30⟩

/-- A transport whose every response is 2xx with the given JSON body. -/
def constSuccess (j : Json) : HttpRequest → HttpResult :=
  fun _ => .success ⟨"", some j, []⟩

def respEmpty : Json := .obj [("data", .arr []), ("total", .num 0)]

def tEmpty : Nat → HttpRequest → HttpResult := fun _ => constSuccess respEmpty

def summaryJson (i sender subj prev rs : String) (hA : Bool) : Json :=
  .obj [("id", .str i), ("from", .str sender), ("subject", .str subj),
    ("textPreview", .str prev), ("receivedAt", .str rs), ("hasAttachments", .bool hA)]

def listRespJson (e : Json) (total : Int) : Json :=
  .obj [("data", .arr [e]), ("total", .num total)]

def detailJson (i sender subj htmlB textB rs : String) (hA : Bool) : Json :=
  .obj [("id", .str i), ("from", .str sender), ("to", .arr []), ("subject", .str subj),
    ("html", .str htmlB), ("text", .str textB), ("receivedAt", .str rs),
    ("hasAttachments", .bool hA)]

def respOne : Json :=
  listRespJson (summaryJson ("m1") ("x@y.zz") ("hi") ("pv") ("2024-01-15T10:30:00Z") false) 1

def summaryOne : EmailSummary :=
  ⟨"m1", "x@y.zz", "hi", "pv", ⟨2024, 1, 15, 10, 30, 0, some 0⟩, false⟩

def tOne : Nat → HttpRequest → HttpResult := fun _ => constSuccess respOne

def t404 : HttpRequest → HttpResult :=
  fun _ => .httpError 404 ("Not Found") (some (.obj [("error", Json.str ("mailbox not found"))]))

def t500arr : HttpRequest → HttpResult :=
  fun _ => .httpError 500 ("Internal Server Error") (some (.arr []))

def tConn : HttpRequest → HttpResult := fun _ => .connError ("Connection refused")

/-- The `VanishError` message produced for an HTTP error response whose
body is `body` (matching vanish.py:124-129 for decodable-dict and
undecodable bodies). -/
def httpErrMessage (code : Nat) (reason : String) (body : Option Json) : Json :=
  match body with
  | some (.obj fs) => (lookupField fs ("error")).getD (.str (httpErrStr code reason))
  | _ => .str (httpErrStr code reason)

/-! ## Lemmas: characters and percent-encoding -/

theorem toNat_ofNat_lt {n : Nat} (h : n < 55296) : (Char.ofNat n).toNat = n := by
  rw [Char.ofNat, dif_pos (Or.inl h)]
  rfl

theorem char_toNat_lt (c : Char) : c.toNat < 1114112 := by
  rcases c.valid with h | ⟨_, h⟩
  · have := UInt32.toNat_lt_of_lt (n := c.val) (m := 55296) (by decide) h
    exact Nat.lt_trans this (by norm_num)
  · exact UInt32.toNat_lt_of_lt (n := c.val) (m := 1114112) (by decide) h

theorem isSafeByte_bounds {b : Nat} (h : isSafeByte b = true) : b < 128 ∧ b ≠ 37 := by
  simp only [isSafeByte, Bool.or_eq_true, Bool.and_eq_true, decide_eq_true_eq,
    beq_iff_eq] at h
  omega

theorem utf8Bytes_ofNat_small {b : Nat} (h : b < 128) : utf8Bytes (Char.ofNat b) = [b] := by
  have ht : (Char.ofNat b).toNat = b := toNat_ofNat_lt (by omega)
  simp [utf8Bytes, ht, h]

theorem ofNat_ne_percent {b : Nat} (hb : b < 128) (h37 : b ≠ 37) : Char.ofNat b ≠ '%' := by
  intro h
  have h2 := congrArg Char.toNat h
  rw [toNat_ofNat_lt (by omega)] at h2
  exact h37 (h2.trans (by decide))

theorem unquoteBytes_cons_ne (c : Char) (hc : c ≠ '%') (rest : List Char) :
    unquoteBytes (c :: rest) = utf8Bytes c ++ unquoteBytes rest := by
  cases rest with
  | nil => simp [unquoteBytes]
  | cons c1 tl =>
    cases tl with
    | nil => simp [unquoteBytes]
    | cons c2 tl2 =>
      rw [unquoteBytes.eq_def]
      split
      · next heq => exact absurd heq (List.cons_ne_nil _ _)
      · next _ a b r2 heq =>
          injection heq with h htl
          exact absurd h hc
      · next _ c' rest' hx heq =>
          injection heq with h htl
          subst h
          subst htl
          rfl

theorem unquoteBytes_escape (c1 c2 : Char) (h1 h2 : Nat) (rest : List Char)
    (e1 : hexVal? c1 = some h1) (e2 : hexVal? c2 = some h2) :
    unquoteBytes ('%' :: c1 :: c2 :: rest) = (16 * h1 + h2) :: unquoteBytes rest := by
  rw [unquoteBytes.eq_def]
  split
  · next heq => exact absurd heq (List.cons_ne_nil _ _)
  · next _ a b r2 heq =>
      injection heq with h htl
      injection htl with ha htl2
      injection htl2 with hb hr
      subst ha
      subst hb
      subst hr
      simp [e1, e2]
  · next _ c' rest' hx heq =>
      injection heq with h hr
      exact (hx c1 c2 rest h.symm hr.symm).elim

theorem hexVal_hexDigitCh : ∀ k, k < 16 → hexVal? (hexDigitCh k) = some k := by
  decide

theorem unquote_quoteByte {b : Nat} (hb : b < 256) (rest : List Char) :
    unquoteBytes (quoteByte b ++ rest) = b :: unquoteBytes rest := by
  by_cases hs : isSafeByte b = true
  · obtain ⟨h128, h37⟩ := isSafeByte_bounds hs
    simp only [quoteByte, if_pos hs, List.cons_append, List.nil_append]
    rw [unquoteBytes_cons_ne _ (ofNat_ne_percent h128 h37), utf8Bytes_ofNat_small h128]
    rfl
  · simp only [quoteByte, if_neg hs, List.cons_append, List.nil_append]
    rw [unquoteBytes_escape _ _ (b / 16) (b % 16) _
      (hexVal_hexDigitCh _ (by omega)) (hexVal_hexDigitCh _ (by omega))]
    congr 1
    omega

theorem utf8Bytes_lt (c : Char) : ∀ b ∈ utf8Bytes c, b < 256 := by
  intro b hb
  have hv := char_toNat_lt c
  by_cases h1 : c.toNat < 128
  · rw [utf8Bytes, if_pos h1] at hb
    simp at hb
    omega
  · by_cases h2 : c.toNat < 2048
    · rw [utf8Bytes, if_neg h1, if_pos h2] at hb
      simp at hb
      rcases hb with hb | hb <;> omega
    · by_cases h3 : c.toNat < 65536
      · rw [utf8Bytes, if_neg h1, if_neg h2, if_pos h3] at hb
        simp at hb
        rcases hb with hb | hb | hb <;> omega
      · rw [utf8Bytes, if_neg h1, if_neg h2, if_neg h3] at hb
        simp at hb
        rcases hb with hb | hb | hb | hb <;> omega

theorem utf8Bytes_ne_nil (c : Char) : utf8Bytes c ≠ [] := by
  rw [utf8Bytes]
  split_ifs <;> simp

theorem strBytes_lt (s : String) : ∀ b ∈ strBytes s, b < 256 := by
  intro b hb
  simp only [strBytes, List.mem_flatMap] at hb
  obtain ⟨c, _, hc⟩ := hb
  exact utf8Bytes_lt c b hc

theorem unquote_quoteBytes (bs : List Nat) (h : ∀ b ∈ bs, b < 256) (rest : List Char) :
    unquoteBytes (bs.flatMap quoteByte ++ rest) = bs ++ unquoteBytes rest := by
  induction bs with
  | nil => simp
  | cons b tl ih =>
    rw [List.flatMap_cons, List.append_assoc,
      unquote_quoteByte (h b (List.mem_cons_self b tl)),
      ih (fun x hx => h x (List.mem_cons_of_mem b hx))]
    rfl

theorem decodeChar_prefix (c : Char) (bs : List Nat) :
    decodeChar (utf8Bytes c ++ bs) = some (c, bs) := by
  have hc : Char.ofNat c.toNat = c := Char.ofNat_toNat c
  have hlt := char_toNat_lt c
  by_cases h1 : c.toNat < 128
  · rw [utf8Bytes, if_pos h1, List.cons_append, List.nil_append]
    simp only [decodeChar]
    rw [if_pos h1, hc]
  · by_cases h2 : c.toNat < 2048
    · rw [utf8Bytes, if_neg h1, if_pos h2]
      simp only [List.cons_append, List.nil_append, decodeChar]
      rw [if_neg (by omega), if_neg (by omega), if_pos (by omega), if_pos (by omega)]
      rw [show (192 + c.toNat / 64 - 192) * 64 + (128 + c.toNat % 64 - 128) = c.toNat by omega, hc]
    · by_cases h3 : c.toNat < 65536
      · rw [utf8Bytes, if_neg h1, if_neg h2, if_pos h3]
        simp only [List.cons_append, List.nil_append, decodeChar]
        rw [if_neg (by omega), if_neg (by omega), if_neg (by omega), if_pos (by omega),
          if_pos (by omega)]
        rw [show (224 + c.toNat / 4096 - 224) * 4096 + (128 + c.toNat / 64 % 64 - 128) * 64 +
          (128 + c.toNat % 64 - 128) = c.toNat by omega, hc]
      · rw [utf8Bytes, if_neg h1, if_neg h2, if_neg h3]
        simp only [List.cons_append, List.nil_append, decodeChar]
        rw [if_neg (by omega), if_neg (by omega), if_neg (by omega), if_neg (by omega),
          if_pos (by omega)]
        rw [show (240 + c.toNat / 262144 - 240) * 262144 + (128 + c.toNat / 4096 % 64 - 128) * 4096 +
          (128 + c.toNat / 64 % 64 - 128) * 64 + (128 + c.toNat % 64 - 128) = c.toNat by omega, hc]

theorem utf8DecodeAux_flat :
    ∀ (l : List Char) (fuel : Nat), l.length ≤ fuel →
      utf8DecodeAux fuel (l.flatMap utf8Bytes) = some l := by
  intro l
  induction l with
  | nil =>
    intro fuel _
    cases fuel <;> rfl
  | cons c cs ih =>
    intro fuel hf
    cases fuel with
    | zero => simp at hf
    | succ f =>
      rw [List.flatMap_cons]
      obtain ⟨hd, tl, heq⟩ : ∃ hd tl, utf8Bytes c ++ cs.flatMap utf8Bytes = hd :: tl := by
        cases hub : utf8Bytes c with
        | nil => exact absurd hub (utf8Bytes_ne_nil c)
        | cons a as => exact ⟨a, as ++ cs.flatMap utf8Bytes, by rw [List.cons_append]⟩
      rw [heq, utf8DecodeAux, ← heq, decodeChar_prefix]
      show Option.map (fun cs2 => c :: cs2) (utf8DecodeAux f (cs.flatMap utf8Bytes)) =
        some (c :: cs)
      rw [ih f (by simp at hf; omega)]
      rfl

theorem length_le_flatMap_utf8 (l : List Char) : l.length ≤ (l.flatMap utf8Bytes).length := by
  induction l with
  | nil => simp
  | cons c cs ih =>
    rw [List.flatMap_cons, List.length_append, List.length_cons]
    have h1 : 1 ≤ (utf8Bytes c).length :=
      Nat.succ_le_of_lt (List.length_pos.mpr (utf8Bytes_ne_nil c))
    omega

theorem utf8Decode_flat (l : List Char) : utf8Decode (l.flatMap utf8Bytes) = some l := by
  rw [utf8Decode,
    utf8DecodeAux_flat l ((l.flatMap utf8Bytes).length) (length_le_flatMap_utf8 l)]

/-- Round trip: percent-decoding the quoted form of any string yields the
string back. -/
theorem percentDecode_quote (s : String) : percentDecode (quote s) = some s := by
  have hq : (quote s).data = (strBytes s).flatMap quoteByte := rfl
  rw [percentDecode, hq, ← List.append_nil ((strBytes s).flatMap quoteByte),
    unquote_quoteBytes _ (strBytes_lt s) []]
  have hnil : unquoteBytes [] = [] := by simp [unquoteBytes]
  rw [hnil, List.append_nil, strBytes, utf8Decode_flat]
  rfl

theorem hexDigitCh_not_reserved : ∀ k, k < 16 →
    hexDigitCh k ≠ '/' ∧ hexDigitCh k ≠ '?' ∧ hexDigitCh k ≠ '#' := by
  decide

/-- Every character that `quote` emits is an unreserved character, a `%`,
or a hex digit; in particular no `/`, `?` or `#` survives, so the encoded
address stays a single path segment. -/
theorem quote_char_class (s : String) :
    ∀ c ∈ (quote s).data, c ≠ '/' ∧ c ≠ '?' ∧ c ≠ '#' := by
  intro c hc
  have hq : (quote s).data = (strBytes s).flatMap quoteByte := rfl
  rw [hq, List.mem_flatMap] at hc
  obtain ⟨b, hb, hcb⟩ := hc
  have hblt := strBytes_lt s b hb
  by_cases hs : isSafeByte b = true
  · rw [quoteByte, if_pos hs] at hcb
    simp only [List.mem_singleton] at hcb
    subst hcb
    obtain ⟨h128, _⟩ := isSafeByte_bounds hs
    have hb2 : (Char.ofNat b).toNat = b := toNat_ofNat_lt (by omega)
    have hbb : b ≠ 47 ∧ b ≠ 63 ∧ b ≠ 35 := by
      simp only [isSafeByte, Bool.or_eq_true, Bool.and_eq_true, decide_eq_true_eq,
        beq_iff_eq] at hs
      omega
    refine ⟨fun h => hbb.1 ?_, fun h => hbb.2.1 ?_, fun h => hbb.2.2 ?_⟩ <;>
      (rw [← hb2, h]; rfl)
  · rw [quoteByte, if_neg hs] at hcb
    simp only [List.mem_cons, List.mem_singleton, List.not_mem_nil, or_false] at hcb
    rcases hcb with hcb | hcb | hcb
    · subst hcb
      exact ⟨by decide, by decide, by decide⟩
    · subst hcb
      exact hexDigitCh_not_reserved (b / 16) (by omega)
    · subst hcb
      exact hexDigitCh_not_reserved (b % 16) (by omega)

/-! ## Lemmas: rendering and parsing wire timestamps -/

theorem digitCh_toNat {k : Nat} (h : k ≤ 9) : (digitCh k).toNat = 48 + k :=
  toNat_ofNat_lt (by omega)

theorem parse2_pad2 {n : Nat} (h : n ≤ 99) {rest : List Char} :
    parse2 (pad2 n ++ rest) = some (n, rest) := by
  have d1 : (digitCh (n / 10)).toNat = 48 + n / 10 := digitCh_toNat (by omega)
  have d2 : (digitCh (n % 10)).toNat = 48 + n % 10 := digitCh_toNat (by omega)
  simp only [pad2, List.cons_append, List.nil_append, parse2, d1, d2]
  rw [if_pos (by omega)]
  have hv : (48 + n / 10 - 48) * 10 + (48 + n % 10 - 48) = n := by omega
  rw [hv]

theorem parse4_pad4 {n : Nat} (h : n ≤ 9999) {rest : List Char} :
    parse4 (pad4 n ++ rest) = some (n, rest) := by
  have d1 : (digitCh (n / 1000)).toNat = 48 + n / 1000 := digitCh_toNat (by omega)
  have d2 : (digitCh (n / 100 % 10)).toNat = 48 + n / 100 % 10 := digitCh_toNat (by omega)
  have d3 : (digitCh (n / 10 % 10)).toNat = 48 + n / 10 % 10 := digitCh_toNat (by omega)
  have d4 : (digitCh (n % 10)).toNat = 48 + n % 10 := digitCh_toNat (by omega)
  simp only [pad4, List.cons_append, List.nil_append, parse4, d1, d2, d3, d4]
  rw [if_pos (by omega)]
  have hv : (48 + n / 1000 - 48) * 1000 + (48 + n / 100 % 10 - 48) * 100 +
      (48 + n / 10 % 10 - 48) * 10 + (48 + n % 10 - 48) = n := by omega
  rw [hv]

theorem expectCh_cons (c : Char) (rest : List Char) : expectCh c (c :: rest) = some rest := by
  simp [expectCh]

theorem digitCh_ne_Z {k : Nat} (hk : k ≤ 9) : digitCh k ≠ 'Z' := by
  intro h
  have h2 := congrArg Char.toNat h
  rw [digitCh_toNat hk] at h2
  have h90 : ('Z').toNat = 90 := rfl
  omega

theorem pad2_no_Z {n : Nat} (h : n ≤ 99) : ∀ c ∈ pad2 n, c ≠ 'Z' := by
  intro c hc
  simp only [pad2, List.mem_cons, List.mem_singleton, List.not_mem_nil, or_false] at hc
  rcases hc with hc | hc <;> (subst hc; exact digitCh_ne_Z (by omega))

theorem pad4_no_Z {n : Nat} (h : n ≤ 9999) : ∀ c ∈ pad4 n, c ≠ 'Z' := by
  intro c hc
  simp only [pad4, List.mem_cons, List.mem_singleton, List.not_mem_nil, or_false] at hc
  rcases hc with hc | hc | hc | hc <;> (subst hc; exact digitCh_ne_Z (by omega))

theorem isoDatePart_no_Z {y mo d h mi s : Nat} (hy : y ≤ 9999) (hmo : mo ≤ 99)
    (hd : d ≤ 99) (hh : h ≤ 99) (hmi : mi ≤ 99) (hsn : s ≤ 99) :
    ∀ c ∈ isoDatePart y mo d h mi s, c ≠ 'Z' := by
  intro c hc
  simp only [isoDatePart, List.mem_append, List.mem_cons] at hc
  rcases hc with hc | hc | hc | hc | hc | hc | hc | hc | hc | hc | hc
  · exact pad4_no_Z hy c hc
  · subst hc; decide
  · exact pad2_no_Z hmo c hc
  · subst hc; decide
  · exact pad2_no_Z hd c hc
  · subst hc; decide
  · exact pad2_no_Z hh c hc
  · subst hc; decide
  · exact pad2_no_Z hmi c hc
  · subst hc; decide
  · exact pad2_no_Z hsn c hc

theorem replaceZ_no_Z {cs : List Char} (h : ∀ c ∈ cs, c ≠ 'Z') (tail : List Char) :
    replaceZ (cs ++ tail) = cs ++ replaceZ tail := by
  induction cs with
  | nil => rfl
  | cons c rest ih =>
    rw [List.cons_append, replaceZ, if_neg (h c (List.mem_cons_self c rest)),
      ih (fun x hx => h x (List.mem_cons_of_mem c hx))]
    rfl

/-- The normalization applied to a well-formed wire timestamp: the result
is the expected UTC-aware datetime (`tzOffsetMinutes = some 0`). -/
theorem parseReceivedAt_isoZ {y mo d h mi s : Nat}
    (hy1 : 1 ≤ y) (hy2 : y ≤ 9999) (hmo1 : 1 ≤ mo) (hmo2 : mo ≤ 12)
    (hd1 : 1 ≤ d) (hd2 : d ≤ daysInMonth y mo) (hh : h ≤ 23) (hmi : mi ≤ 59) (hs : s ≤ 59) :
    parseReceivedAt (isoZ y mo d h mi s) = some ⟨y, mo, d, h, mi, s, some 0⟩ := by
  have hdm : daysInMonth y mo ≤ 31 := by
    rw [daysInMonth]
    split_ifs <;> omega
  have hdata : (isoZ y mo d h mi s).data = isoDatePart y mo d h mi s ++ ['Z'] := rfl
  rw [parseReceivedAt, hdata,
    replaceZ_no_Z (isoDatePart_no_Z hy2 (by omega) (by omega) (by omega) (by omega) (by omega))
      ['Z']]
  have hz : replaceZ ['Z'] = '+' :: '0' :: '0' :: ':' :: '0' :: '0' :: [] := rfl
  rw [hz]
  have hp4 : ∀ rest : List Char, parse4 (pad4 y ++ rest) = some (y, rest) :=
    fun rest => parse4_pad4 (by omega)
  have hpmo : ∀ rest : List Char, parse2 (pad2 mo ++ rest) = some (mo, rest) :=
    fun rest => parse2_pad2 (by omega)
  have hpd : ∀ rest : List Char, parse2 (pad2 d ++ rest) = some (d, rest) :=
    fun rest => parse2_pad2 (by omega)
  have hph : ∀ rest : List Char, parse2 (pad2 h ++ rest) = some (h, rest) :=
    fun rest => parse2_pad2 (by omega)
  have hpmi : ∀ rest : List Char, parse2 (pad2 mi ++ rest) = some (mi, rest) :=
    fun rest => parse2_pad2 (by omega)
  have hps : ∀ rest : List Char, parse2 (pad2 s ++ rest) = some (s, rest) :=
    fun rest => parse2_pad2 (by omega)
  have hoff : parseOffset '+' ('0' :: '0' :: ':' :: '0' :: '0' :: []) = some 0 := rfl
  simp only [fromisoChars, isoDatePart, List.append_assoc, List.cons_append, hp4, hpmo, hpd,
    hph, hpmi, hps, expectCh_cons, parseSecPart, parseTzPart, hoff, true_or, if_true]
  rw [mkDT, if_pos ⟨hy1, hy2, hmo1, hmo2, hd1, hd2, hh, hmi, hs⟩]

/-! ## Lemmas: the poll loop -/

theorem pollAux_exit {check : Nat → Outcome PaginatedEmailList} {t i ic : Int}
    {fuel n : Nat} (h : ¬ ((n : Int) * i < t)) :
    pollAux check t i ic (fuel + 1) n = some (.timedOut n) := by
  rw [pollAux, if_neg h]

theorem pollAux_found {check : Nat → Outcome PaginatedEmailList} {t i ic : Int}
    {fuel n : Nat} {r : PaginatedEmailList} {d : EmailSummary}
    (hn : (n : Int) * i < t) (hc : check n = .ok r) (hm : newMailAt ic r = some d) :
    pollAux check t i ic (fuel + 1) n = some (.found d n) := by
  rw [pollAux, if_pos hn]
  simp only [hc, hm]

theorem pollAux_err {check : Nat → Outcome PaginatedEmailList} {t i ic : Int}
    {fuel n : Nat} {e : VanishError}
    (hn : (n : Int) * i < t) (hc : check n = .err e) :
    pollAux check t i ic (fuel + 1) n = some (.raised e n) := by
  rw [pollAux, if_pos hn]
  simp only [hc]

theorem pollAux_exn {check : Nat → Outcome PaginatedEmailList} {t i ic : Int}
    {fuel n : Nat} {m : String}
    (hn : (n : Int) * i < t) (hc : check n = .exn m) :
    pollAux check t i ic (fuel + 1) n = some (.crashed m n) := by
  rw [pollAux, if_pos hn]
  simp only [hc]

theorem pollAux_cont {check : Nat → Outcome PaginatedEmailList} {t i ic : Int}
    {fuel n : Nat} {r : PaginatedEmailList}
    (hn : (n : Int) * i < t) (hc : check n = .ok r) (hm : newMailAt ic r = none)
    (hneg : ¬ i < 0) :
    pollAux check t i ic (fuel + 1) n = pollAux check t i ic fuel (n + 1) := by
  rw [pollAux, if_pos hn]
  simp only [hc, hm]
  rw [if_neg hneg]

theorem pollAux_skip {check : Nat → Outcome PaginatedEmailList} {t i ic : Int} (hi : 1 ≤ i)
    (j : Nat) :
    ∀ (fuel n : Nat),
      (∀ m, n ≤ m → m < n + j → ((m : Int) * i < t ∧ continuesPoll ic (check m))) →
      pollAux check t i ic (j + fuel) n = pollAux check t i ic fuel (n + j) := by
  induction j with
  | zero =>
    intro fuel n _
    rw [Nat.zero_add, Nat.add_zero]
  | succ j ih =>
    intro fuel n hcont
    obtain ⟨hn, hcp⟩ := hcont n (Nat.le_refl n) (by omega)
    obtain ⟨r, hr, hm⟩ := hcp
    have h1 : j + 1 + fuel = (j + fuel) + 1 := by omega
    rw [h1, pollAux_cont hn hr hm (by omega),
      ih fuel (n + 1) (fun m hm1 hm2 => hcont m (by omega) (by omega))]
    have h2 : n + 1 + j = n + (j + 1) := by omega
    rw [h2]

theorem n_le_toNat {t i : Int} (hi : 1 ≤ i) {n : Nat} (hn : (n : Int) * i < t) :
    n ≤ t.toNat := by
  have hnn : (n : Int) ≤ (n : Int) * i :=
    le_mul_of_one_le_right (Int.natCast_nonneg n) hi
  have htt : t ≤ (t.toNat : Int) := Int.self_le_toNat t
  have : (n : Int) < (t.toNat : Int) := by linarith
  exact_mod_cast Int.le_of_lt this

theorem pollAux_run {check : Nat → Outcome PaginatedEmailList} {t i ic : Int} (hi : 1 ≤ i)
    {n : Nat} (hcont : ∀ m, m < n → continuesPoll ic (check m)) (hn : (n : Int) * i < t) :
    pollAux check t i ic (t.toNat + 1) 0 = pollAux check t i ic (t.toNat + 1 - n) n := by
  have hmono : ∀ m : Nat, m < n → (m : Int) * i < t := by
    intro m hm
    have hmn : (m : Int) < (n : Int) := by exact_mod_cast hm
    have h1 : (m : Int) * i < (n : Int) * i := mul_lt_mul_of_pos_right hmn (by omega)
    linarith
  have hnt : n ≤ t.toNat := n_le_toNat hi hn
  have h1 : t.toNat + 1 = n + (t.toNat + 1 - n) := by omega
  rw [h1, pollAux_skip hi n (t.toNat + 1 - n) 0
    (fun m hm1 hm2 => ⟨hmono m (by omega), hcont m (by omega)⟩), Nat.zero_add]
  congr 1
  omega

theorem pollAux_raises {check : Nat → Outcome PaginatedEmailList} {t i ic : Int} (hi : 1 ≤ i)
    {n : Nat} {e : VanishError}
    (hcont : ∀ m, m < n → continuesPoll ic (check m))
    (hn : (n : Int) * i < t) (he : check n = .err e) :
    pollAux check t i ic (t.toNat + 1) 0 = some (.raised e n) := by
  rw [pollAux_run hi hcont hn]
  have hnt : n ≤ t.toNat := n_le_toNat hi hn
  have h2 : t.toNat + 1 - n = (t.toNat - n) + 1 := by omega
  rw [h2, pollAux_err hn he]

theorem exit_idx_bound {t i : Int} (hi : 1 ≤ i) (h0 : 0 ≤ t) {n : Nat}
    (hn : n = 0 ∨ ((n : Int) - 1) * i < t) : (n : Int) * i < t + i := by
  rcases hn with rfl | hn
  · have hz : ((0 : Nat) : Int) * i = 0 := by simp
    rw [hz]
    linarith
  · have h1 : (n : Int) * i = ((n : Int) - 1) * i + i := by ring
    linarith

theorem pollAux_total {check : Nat → Outcome PaginatedEmailList} {t i ic : Int}
    (hi : 1 ≤ i) (h0 : 0 ≤ t) :
    ∀ (fuel n : Nat), t ≤ (n : Int) + (fuel : Int) → (n = 0 ∨ ((n : Int) - 1) * i < t) →
      ∃ res, pollAux check t i ic (fuel + 1) n = some res ∧
        (pollIdx res : Int) * i < t + i := by
  intro fuel
  induction fuel with
  | zero =>
    intro n hf hn
    have hnn : (n : Int) ≤ (n : Int) * i :=
      le_mul_of_one_le_right (Int.natCast_nonneg n) hi
    have hexit : ¬ ((n : Int) * i < t) := by
      push_cast at hf
      linarith
    exact ⟨.timedOut n, pollAux_exit hexit, exit_idx_bound hi h0 hn⟩
  | succ f ih =>
    intro n hf hn
    by_cases hl : (n : Int) * i < t
    · cases hc : check n with
      | ok r =>
        cases hm : newMailAt ic r with
        | some d =>
          refine ⟨.found d n, pollAux_found hl hc hm, ?_⟩
          show (n : Int) * i < t + i
          linarith
        | none =>
          have hstep : (((n + 1 : Nat)) : Int) - 1 = (n : Int) := by push_cast; ring
          obtain ⟨res, hres, hb⟩ := ih (n + 1)
            (by push_cast; push_cast at hf; linarith)
            (Or.inr (by rw [hstep]; exact hl))
          exact ⟨res, by rw [pollAux_cont hl hc hm (by omega)]; exact hres, hb⟩
      | err e =>
        refine ⟨.raised e n, pollAux_err hl hc, ?_⟩
        show (n : Int) * i < t + i
        linarith
      | exn m =>
        refine ⟨.crashed m n, pollAux_exn hl hc, ?_⟩
        show (n : Int) * i < t + i
        linarith
    · exact ⟨.timedOut n, pollAux_exit hl, exit_idx_bound hi h0 hn⟩

theorem pollAux_timeout {check : Nat → Outcome PaginatedEmailList} {t i ic : Int} (hi : 1 ≤ i)
    (hcont : ∀ m : Nat, (m : Int) * i < t → continuesPoll ic (check m)) :
    ∀ (fuel n : Nat), t ≤ (n : Int) + (fuel : Int) →
      ∃ N : Nat, pollAux check t i ic (fuel + 1) n = some (.timedOut N) ∧
        ¬ ((N : Int) * i < t) := by
  intro fuel
  induction fuel with
  | zero =>
    intro n hf
    have hnn : (n : Int) ≤ (n : Int) * i :=
      le_mul_of_one_le_right (Int.natCast_nonneg n) hi
    have hexit : ¬ ((n : Int) * i < t) := by
      push_cast at hf
      linarith
    exact ⟨n, pollAux_exit hexit, hexit⟩
  | succ f ih =>
    intro n hf
    by_cases hl : (n : Int) * i < t
    · obtain ⟨r, hr, hm⟩ := hcont n hl
      obtain ⟨N, hres, hN⟩ := ih (n + 1) (by push_cast; push_cast at hf; linarith)
      exact ⟨N, by rw [pollAux_cont hl hr hm (by omega)]; exact hres, hN⟩
    · exact ⟨n, pollAux_exit hl, hl⟩

/-! ## Claims -/

/-- Claim C1: `poll_for_emails` repeatedly calls `list_emails(address,
limit=1)`; at the first in-deadline check `n` whose result has
`total > initial_count` and non-empty `data` (i.e. `newMailAt` yields
`some d` with `d = data[0]`), it returns that summary immediately —
`.found d n` records that exactly `n` sleeps happened, none after the
successful check; and if every check made before the deadline continues
(`continuesPoll`), it returns the "no new email" sentinel `None`
(`.timedOut`), whose index `N` satisfies `N * interval ≥ timeout`. -/
theorem poll_first_hit_or_timeout (transports : Nat → HttpRequest → HttpResult)
    (cfg : ClientConfig) (address : String) (timeout interval initial_count : Int)
    (hi : 1 ≤ interval) :
    (∀ (n : Nat) (r : PaginatedEmailList) (d : EmailSummary),
      (∀ m, m < n → continuesPoll initial_count (pollCheck transports cfg address m)) →
      (n : Int) * interval < timeout →
      pollCheck transports cfg address n = .ok r →
      newMailAt initial_count r = some d →
      poll_for_emails transports cfg address timeout interval initial_count =
        some (.found d n)) ∧
    ((∀ m : Nat, (m : Int) * interval < timeout →
        continuesPoll initial_count (pollCheck transports cfg address m)) →
      ∃ N : Nat,
        poll_for_emails transports cfg address timeout interval initial_count =
          some (.timedOut N) ∧ ¬ ((N : Int) * interval < timeout)) := by
  constructor
  · intro n r d hcont hn hc hm
    rw [poll_for_emails, pollAux_run hi hcont hn]
    have hnt : n ≤ timeout.toNat := n_le_toNat hi hn
    have h2 : timeout.toNat + 1 - n = (timeout.toNat - n) + 1 := by omega
    rw [h2, pollAux_found hn hc hm]
  · intro hcont
    rw [poll_for_emails]
    have hf : timeout ≤ ((0 : Nat) : Int) + (timeout.toNat : Int) := by
      simp
    exact pollAux_timeout hi hcont timeout.toNat 0 hf

/-- Witness for C1 at concrete inputs: a mailbox that has a new message
on the very first check yields that summary at check index 0, and a
mailbox that never does yields the timeout sentinel. -/
theorem poll_first_hit_or_timeout_witness :
    poll_for_emails tOne cfg0 ("a@b.io") 10 5 0 = some (.found summaryOne 0) ∧
    ∃ N : Nat, poll_for_emails tEmpty cfg0 ("a@b.io") 10 5 0 = some (.timedOut N) ∧
      ¬ ((N : Int) * 5 < 10) := by
  constructor
  · exact (poll_first_hit_or_timeout tOne cfg0 ("a@b.io") 10 5 0 (by norm_num)).1
      0 ⟨[summaryOne], none, 1⟩ summaryOne
      (fun m hm => absurd hm (Nat.not_lt_zero m)) (by norm_num) rfl rfl
  · exact (poll_first_hit_or_timeout tEmpty cfg0 ("a@b.io") 10 5 0 (by norm_num)).2
      (fun m _ => ⟨⟨[], none, 0⟩, rfl, rfl⟩)

/-- Counterexample for C2 as stated: with `timeout = 10` and
`interval = 100`, the single sleep lasts the full `interval` (100 s)
although only 10 s remained until the deadline; the loop therefore only
returns at elapsed time `1 * 100 = 100 > timeout`, which is impossible
under "each sleep lasts at most the time remaining until the deadline". -/
theorem poll_sleep_not_clamped_cex :
    poll_for_emails tEmpty cfg0 ("a@b.io") 10 100 0 = some (.timedOut 1) ∧
    ((10 : Int) < (1 : Int) * 100) := by
  exact ⟨rfl, by norm_num⟩

/-- Claim C2 (amended): the code always sleeps the full `interval`
(`time.sleep(interval)` at vanish.py:314 is not clamped to the remaining
time), but because the elapsed-time guard is re-checked after every
sleep, the poll always terminates and returns at elapsed time
`pollIdx res * interval < timeout + interval` — never hanging past one
extra interval beyond the timeout. -/
theorem poll_sleep_bound (transports : Nat → HttpRequest → HttpResult) (cfg : ClientConfig)
    (address : String) (timeout interval initial_count : Int)
    (hi : 1 ≤ interval) (h0 : 0 ≤ timeout) :
    ∃ res, poll_for_emails transports cfg address timeout interval initial_count = some res ∧
      (pollIdx res : Int) * interval < timeout + interval := by
  rw [poll_for_emails]
  have hf : timeout ≤ ((0 : Nat) : Int) + (timeout.toNat : Int) := by
    simp
  exact pollAux_total hi h0 timeout.toNat 0 hf (Or.inl rfl)

/-- Witness for the amended C2 at the spec's own example (`timeout = 10`,
`interval = 100`): the poll returns, and the exit time is below
`timeout + interval`. -/
theorem poll_sleep_bound_witness :
    ∃ res, poll_for_emails tEmpty cfg0 ("a@b.io") 10 100 0 = some res ∧
      (pollIdx res : Int) * 100 < 10 + 100 :=
  poll_sleep_bound tEmpty cfg0 ("a@b.io") 10 100 0 (by norm_num) (by norm_num)

/-- Counterexample for C3 as stated: the identifier path segments of
`get_email` and `get_attachment` are interpolated verbatim
(vanish.py:219, 256), not percent-encoded — an identifier containing a
reserved character does not survive as a single path segment. -/
theorem id_segments_not_encoded_cex :
    get_emailPath ("x/y") = "/email/x/y" ∧
    get_attachmentPath ("x/y") ("z") = "/email/x/y/attachments/z" ∧
    quote ("x/y") = "x%2Fy" ∧
    get_emailPath ("x/y") ≠ "/email/" ++ quote ("x/y") := by
  refine ⟨rfl, rfl, by decide, by decide⟩

/-- Claim C3 (amended): only the caller-supplied *addresses* are
percent-encoded before insertion into the URL path (`list_emails` and
`delete_mailbox`, vanish.py:184, 284), and the encoded address survives
as a single path segment (no `/`, `?` or `#` in it); the identifier
segments of `get_email` and `get_attachment` are inserted verbatim. -/
theorem address_segments_encoded (address : String) :
    list_emailsPath address = "/mailbox/" ++ quote address ∧
    delete_mailboxPath address = "/mailbox/" ++ quote address ∧
    (∀ c ∈ (quote address).data, c ≠ '/' ∧ c ≠ '?' ∧ c ≠ '#') ∧
    (∀ email_id attachment_id : String,
      get_emailPath email_id = "/email/" ++ email_id ∧
      get_attachmentPath email_id attachment_id =
        "/email/" ++ email_id ++ "/attachments/" ++ attachment_id) :=
  ⟨rfl, rfl, quote_char_class address, fun _ _ => ⟨rfl, rfl⟩⟩

/-- Witness for the amended C3 at `"a+b@x.io"`: the `%` introduced by the
encoding is inside the segment and is none of the separators. -/
theorem address_segments_encoded_witness :
    list_emailsPath ("a+b@x.io") = "/mailbox/" ++ quote ("a+b@x.io") ∧
    ('%' ≠ '/' ∧ '%' ≠ '?' ∧ '%' ≠ '#') :=
  ⟨(address_segments_encoded ("a+b@x.io")).1,
    (address_segments_encoded ("a+b@x.io")).2.2.1 '%' (by decide)⟩

/-- Counterexample for C4 as stated: an HTTP 500 whose body is valid JSON
but not an object (here `[]`) does not surface as a `VanishError` at all:
`error_body.get` raises `AttributeError` (vanish.py:126 on a list). -/
theorem http_error_nonobject_cex :
    get_domains t500arr cfg0 = .exn ("AttributeError") ∧
    ∀ e : VanishError, get_domains t500arr cfg0 ≠ .err e := by
  constructor
  · rfl
  · intro e h
    rw [show get_domains t500arr cfg0 = Outcome.exn ("AttributeError") from rfl] at h
    exact Outcome.noConfusion h

/-- Claim C4 (amended): for every HTTP error response whose body is
either undecodable (`none`) or a JSON object, every operation raises a
`VanishError` whose message is the body's `error` field if present
(otherwise the generic `str(e)` status description) and whose status code
is the HTTP status; valid-JSON non-object bodies instead escape as an
uncaught `AttributeError` (see the counterexample). -/
theorem http_error_mapping (t : HttpRequest → HttpResult) (cfg : ClientConfig)
    (code : Nat) (reason : String) (body : Option Json)
    (ht : ∀ req, t req = .httpError code reason body)
    (hbody : body = none ∨ ∃ fs, body = some (.obj fs)) :
    (get_domains t cfg = .err ⟨httpErrMessage code reason body, some code⟩) ∧
    (∀ dom pfx, generate_email t cfg dom pfx =
      .err ⟨httpErrMessage code reason body, some code⟩) ∧
    (∀ address limit cursor, list_emails t cfg address limit cursor =
      .err ⟨httpErrMessage code reason body, some code⟩) ∧
    (∀ eid, get_email t cfg eid = .err ⟨httpErrMessage code reason body, some code⟩) ∧
    (∀ eid aid, get_attachment t cfg eid aid =
      .err ⟨httpErrMessage code reason body, some code⟩) ∧
    (∀ eid, delete_email t cfg eid = .err ⟨httpErrMessage code reason body, some code⟩) ∧
    (∀ address, delete_mailbox t cfg address =
      .err ⟨httpErrMessage code reason body, some code⟩) := by
  have hreq : ∀ method path params body2,
      requestJson t cfg method path params body2 =
        .err ⟨httpErrMessage code reason body, some code⟩ := by
    intro method path params body2
    rw [requestJson, ht (buildRequest cfg method path params body2)]
    rcases hbody with rfl | ⟨fs, rfl⟩ <;> rfl
  have hraw : ∀ method path params body2,
      requestRaw t cfg method path params body2 =
        .err ⟨httpErrMessage code reason body, some code⟩ := by
    intro method path params body2
    rw [requestRaw, ht (buildRequest cfg method path params body2)]
    rcases hbody with rfl | ⟨fs, rfl⟩ <;> rfl
  refine ⟨?_, ?_, ?_, ?_, ?_, ?_, ?_⟩
  · rw [get_domains, hreq]
    rfl
  · intro dom pfx
    simp only [generate_email]
    rw [hreq]
    rfl
  · intro address limit cursor
    rw [list_emails, hreq]
    rfl
  · intro eid
    rw [get_email, hreq]
    rfl
  · intro eid aid
    rw [get_attachment, hraw]
  · intro eid
    rw [delete_email, hreq]
    rfl
  · intro address
    rw [delete_mailbox, hreq]
    rfl

/-- Witness for C4 at the spec's example: an HTTP 404 with body
`{"error":"mailbox not found"}` surfaces from `list_emails` as a
`VanishError` with message `"mailbox not found"` and status code 404. -/
theorem http_error_mapping_witness :
    list_emails t404 cfg0 ("bob@example.com") 20 none =
      .err ⟨.str ("mailbox not found"), some 404⟩ := by
  have h := http_error_mapping t404 cfg0 404 ("Not Found")
    (some (.obj [("error", Json.str ("mailbox not found"))]))
    (fun _ => rfl) (Or.inr ⟨_, rfl⟩)
  exact h.2.2.1 ("bob@example.com") 20 none

/-- Claim C5: a connection/transport-level failure (`URLError`: DNS
failure, refused connection, timeout expiry) surfaces from every
operation as a `VanishError` with the descriptive message
`"Connection error: <reason>"` and no status code. -/
theorem conn_error_mapping (t : HttpRequest → HttpResult) (cfg : ClientConfig)
    (reason : String) (ht : ∀ req, t req = .connError reason) :
    (get_domains t cfg = .err ⟨.str ("Connection error: " ++ reason), none⟩) ∧
    (∀ dom pfx, generate_email t cfg dom pfx =
      .err ⟨.str ("Connection error: " ++ reason), none⟩) ∧
    (∀ address limit cursor, list_emails t cfg address limit cursor =
      .err ⟨.str ("Connection error: " ++ reason), none⟩) ∧
    (∀ eid, get_email t cfg eid = .err ⟨.str ("Connection error: " ++ reason), none⟩) ∧
    (∀ eid aid, get_attachment t cfg eid aid =
      .err ⟨.str ("Connection error: " ++ reason), none⟩) ∧
    (∀ eid, delete_email t cfg eid = .err ⟨.str ("Connection error: " ++ reason), none⟩) ∧
    (∀ address, delete_mailbox t cfg address =
      .err ⟨.str ("Connection error: " ++ reason), none⟩) := by
  have hreq : ∀ method path params body2,
      requestJson t cfg method path params body2 =
        .err ⟨.str ("Connection error: " ++ reason), none⟩ := by
    intro method path params body2
    rw [requestJson, ht (buildRequest cfg method path params body2)]
    rfl
  have hraw : ∀ method path params body2,
      requestRaw t cfg method path params body2 =
        .err ⟨.str ("Connection error: " ++ reason), none⟩ := by
    intro method path params body2
    rw [requestRaw, ht (buildRequest cfg method path params body2)]
    rfl
  refine ⟨?_, ?_, ?_, ?_, ?_, ?_, ?_⟩
  · rw [get_domains, hreq]
    rfl
  · intro dom pfx
    simp only [generate_email]
    rw [hreq]
    rfl
  · intro address limit cursor
    rw [list_emails, hreq]
    rfl
  · intro eid
    rw [get_email, hreq]
    rfl
  · intro eid aid
    rw [get_attachment, hraw]
  · intro eid
    rw [delete_email, hreq]
    rfl
  · intro address
    rw [delete_mailbox, hreq]
    rfl

/-- Witness for C5: a refused connection surfaces from `get_domains` with
message `"Connection error: Connection refused"` and no status code. -/
theorem conn_error_mapping_witness :
    get_domains tConn cfg0 =
      .err ⟨.str ("Connection error: Connection refused"), none⟩ :=
  (conn_error_mapping tConn cfg0 ("Connection refused") (fun _ => rfl)).1

theorem asReceivedAt_str {rs : String} {dt : PyDatetime} (h : parseReceivedAt rs = some dt) :
    asReceivedAt (.str rs) = .ok dt := by
  rw [asReceivedAt]
  simp only [asStr, Outcome.bind, h]

theorem parseSummary_summaryJson (i sender subj prev rs : String) (hA : Bool)
    {dt : PyDatetime} (hparse : parseReceivedAt rs = some dt) :
    parseSummary (summaryJson i sender subj prev rs hA) =
      .ok ⟨i, sender, subj, prev, dt, hA⟩ := by
  show Outcome.bind (asReceivedAt (.str rs))
    (fun dt2 => Outcome.ok (⟨i, sender, subj, prev, dt2, hA⟩ : EmailSummary)) = _
  rw [asReceivedAt_str hparse]
  rfl

theorem parseSummaries_one (e : Json) (s : EmailSummary) (h : parseSummary e = .ok s) :
    parseSummaries [e] = .ok [s] := by
  show Outcome.bind (parseSummary e) (fun s2 => Outcome.ok [s2]) = _
  rw [h]
  rfl

/-- Claim C6: a wire timestamp in ISO-8601 form with a `Z` suffix is
normalized by the shared `receivedAt` handling of `list_emails` and
`get_email` into an explicit UTC-aware datetime — `tzOffsetMinutes =
some 0`, never the naive `none` — with exactly the rendered components;
and full runs of both operations on a response carrying that timestamp
produce a summary/detail whose `received_at` is that UTC-aware value. -/
theorem timestamp_normalization (y mo d h mi s : Nat)
    (hy1 : 1 ≤ y) (hy2 : y ≤ 9999) (hmo1 : 1 ≤ mo) (hmo2 : mo ≤ 12)
    (hd1 : 1 ≤ d) (hd2 : d ≤ daysInMonth y mo) (hh : h ≤ 23) (hmi : mi ≤ 59) (hs : s ≤ 59) :
    parseReceivedAt (isoZ y mo d h mi s) = some ⟨y, mo, d, h, mi, s, some 0⟩ ∧
    (∀ (cfg : ClientConfig) (address i sender subj prev : String) (hA : Bool) (total : Int),
      list_emails (constSuccess
          (listRespJson (summaryJson i sender subj prev (isoZ y mo d h mi s) hA) total))
        cfg address 20 none =
        .ok ⟨[⟨i, sender, subj, prev, ⟨y, mo, d, h, mi, s, some 0⟩, hA⟩], none, total⟩) ∧
    (∀ (cfg : ClientConfig) (eid i sender subj htmlB textB : String) (hA : Bool),
      get_email (constSuccess (detailJson i sender subj htmlB textB (isoZ y mo d h mi s) hA))
        cfg eid =
        .ok ⟨i, sender, [], subj, htmlB, textB, ⟨y, mo, d, h, mi, s, some 0⟩, hA, []⟩) := by
  have hp := parseReceivedAt_isoZ hy1 hy2 hmo1 hmo2 hd1 hd2 hh hmi hs
  refine ⟨hp, ?_, ?_⟩
  · intro cfg address i sender subj prev hA total
    show Outcome.bind (parseSummaries [summaryJson i sender subj prev (isoZ y mo d h mi s) hA])
      (fun emails => Outcome.ok (⟨emails, none, total⟩ : PaginatedEmailList)) = _
    rw [parseSummaries_one _ _ (parseSummary_summaryJson i sender subj prev _ hA hp)]
    rfl
  · intro cfg eid i sender subj htmlB textB hA
    show Outcome.bind (asReceivedAt (.str (isoZ y mo d h mi s)))
      (fun dt2 =>
        Outcome.ok (⟨i, sender, [], subj, htmlB, textB, dt2, hA, []⟩ : EmailDetail)) = _
    rw [asReceivedAt_str hp]
    rfl

/-- Witness for C6 at the spec's example: `"2024-01-15T10:30:00Z"` maps to
the UTC-aware 2024-01-15 10:30:00 (+00:00), not a naive time. -/
theorem timestamp_normalization_witness :
    parseReceivedAt ("2024-01-15T10:30:00Z") = some ⟨2024, 1, 15, 10, 30, 0, some 0⟩ := by
  have h := (timestamp_normalization 2024 1 15 10 30 0 (by norm_num) (by norm_num)
    (by norm_num) (by norm_num) (by norm_num) (by decide) (by norm_num) (by norm_num)
    (by norm_num)).1
  have he : ("2024-01-15T10:30:00Z" : String) = isoZ 2024 1 15 10 30 0 := by decide
  rw [he]
  exact h

/-- Claim C7: a response with `nextCursor` omitted yields
`next_cursor = none`, and a `list_emails` call with an absent cursor
omits the `cursor` query parameter entirely — the URL is exactly
`{base}{path}?limit={limit}` with no cursor key. -/
theorem cursor_omission (cfg : ClientConfig) (address : String) (limit : Int)
    (fs : List (String × Json)) (total : Int)
    (hd : lookupField fs ("data") = some (.arr []))
    (hn : lookupField fs ("nextCursor") = none)
    (ht : lookupField fs ("total") = some (.num total)) :
    (buildRequest cfg ("GET") (list_emailsPath address) (listEmailsParams limit none) none).url =
      cfg.base_url ++ list_emailsPath address ++ "?limit=" ++ quotePlus (toString limit) ∧
    list_emails (constSuccess (.obj fs)) cfg address limit none = .ok ⟨[], none, total⟩ := by
  constructor
  · have h1 : quotePlus ("limit") = "limit" := by decide
    show ((cfg.base_url ++ list_emailsPath address) ++ "?") ++
        ((quotePlus ("limit") ++ "=") ++ quotePlus (toString limit)) = _
    rw [h1]
    have h2 : (("limit" : String) ++ "=") = "limit=" := rfl
    rw [h2, ← String.append_assoc,
      String.append_assoc (cfg.base_url ++ list_emailsPath address) ("?") ("limit=")]
    rfl
  · have hreq : requestJson (constSuccess (.obj fs)) cfg ("GET") (list_emailsPath address)
        (listEmailsParams limit none) none = .ok (.obj fs) := rfl
    rw [list_emails, hreq]
    simp only [Outcome.bind, getItem, getOpt, asOptCursor, asArr, asInt, parseSummaries,
      hd, hn, ht]

/-- Witness for C7 at concrete inputs. -/
theorem cursor_omission_witness :
    (buildRequest cfg0 ("GET") (list_emailsPath ("a@b")) (listEmailsParams 1 none) none).url =
      "http://h/mailbox/a%40b?limit=1" ∧
    list_emails (constSuccess (.obj [("data", Json.arr []), ("total", Json.num 7)]))
      cfg0 ("a@b") 1 none = .ok ⟨[], none, 7⟩ := by
  have h := cursor_omission cfg0 ("a@b") 1 [("data", Json.arr []), ("total", Json.num 7)] 7
    rfl rfl rfl
  exact ⟨by rw [h.1]; decide, h.2⟩

/-- Claim C8: absent optional response fields map to named defaults, not
failures: `get_email` with no `attachments` field yields an empty
attachment list; `delete_email` with no `success` field yields `False`;
`delete_mailbox` with no `deleted` field yields `0`. -/
theorem missing_field_defaults (cfg : ClientConfig) (eid address : String)
    (fs1 fs2 fs3 : List (String × Json))
    (i sender subj htmlB textB rs : String) (tjs : List Json) (tos : List String)
    (hA : Bool) (dt : PyDatetime)
    (h1a : lookupField fs1 ("attachments") = none)
    (h1b : lookupField fs1 ("id") = some (.str i))
    (h1c : lookupField fs1 ("from") = some (.str sender))
    (h1d : lookupField fs1 ("to") = some (.arr tjs))
    (h1e : asStrList tjs = .ok tos)
    (h1f : lookupField fs1 ("subject") = some (.str subj))
    (h1g : lookupField fs1 ("html") = some (.str htmlB))
    (h1h : lookupField fs1 ("text") = some (.str textB))
    (h1i : lookupField fs1 ("receivedAt") = some (.str rs))
    (h1j : parseReceivedAt rs = some dt)
    (h1k : lookupField fs1 ("hasAttachments") = some (.bool hA))
    (h2 : lookupField fs2 ("success") = none)
    (h3 : lookupField fs3 ("deleted") = none) :
    get_email (constSuccess (.obj fs1)) cfg eid =
      .ok ⟨i, sender, tos, subj, htmlB, textB, dt, hA, []⟩ ∧
    delete_email (constSuccess (.obj fs2)) cfg eid = .ok (.bool false) ∧
    delete_mailbox (constSuccess (.obj fs3)) cfg address = .ok (.num 0) := by
  refine ⟨?_, ?_, ?_⟩
  · have hreq : requestJson (constSuccess (.obj fs1)) cfg ("GET") (get_emailPath eid) [] none =
        .ok (.obj fs1) := rfl
    rw [get_email, hreq]
    simp only [Outcome.bind, getItem, getDefault, asArr, asStr, asBool, parseAttachments,
      asStrList, h1a, h1b, h1c, h1d, h1e, h1f, h1g, h1h, h1i, h1k, Option.getD,
      asReceivedAt_str h1j]
  · have hreq : requestJson (constSuccess (.obj fs2)) cfg ("DELETE") (delete_emailPath eid)
        [] none = .ok (.obj fs2) := rfl
    rw [delete_email, hreq]
    simp only [Outcome.bind, getDefault, h2, Option.getD]
  · have hreq : requestJson (constSuccess (.obj fs3)) cfg ("DELETE")
        (delete_mailboxPath address) [] none = .ok (.obj fs3) := rfl
    rw [delete_mailbox, hreq]
    simp only [Outcome.bind, getDefault, h3, Option.getD]

/-- Witness for C8 at concrete responses. -/
theorem missing_field_defaults_witness :
    get_email (constSuccess (.obj [("id", Json.str ("e1")), ("from", Json.str ("x@y.zz")),
        ("to", Json.arr []), ("subject", Json.str ("s")), ("html", Json.str ("<p>")),
        ("text", Json.str ("t")), ("receivedAt", Json.str ("2024-01-15T10:30:00Z")),
        ("hasAttachments", Json.bool false)])) cfg0 ("e1") =
      .ok ⟨"e1", "x@y.zz", [], "s", "<p>", "t", ⟨2024, 1, 15, 10, 30, 0, some 0⟩, false, []⟩ ∧
    delete_email (constSuccess (.obj [])) cfg0 ("e1") = .ok (.bool false) ∧
    delete_mailbox (constSuccess (.obj [])) cfg0 ("a@b") = .ok (.num 0) :=
  missing_field_defaults cfg0 ("e1") ("a@b") _ [] []
    ("e1") ("x@y.zz") ("s") ("<p>") ("t") ("2024-01-15T10:30:00Z") [] []
    false ⟨2024, 1, 15, 10, 30, 0, some 0⟩
    rfl rfl rfl rfl rfl rfl rfl rfl rfl rfl rfl rfl rfl

/-- Claim C9: for every address string the percent-encoded path segment
used by `list_emails` and `delete_mailbox`, when percent-decoded (unquote
then UTF-8 decode), yields back the original address exactly; at the
spec's example the encoding is `a%2Bb%40example.com`. -/
theorem quote_roundtrip_ops (address : String) :
    list_emailsPath address = "/mailbox/" ++ quote address ∧
    delete_mailboxPath address = "/mailbox/" ++ quote address ∧
    percentDecode (quote address) = some address ∧
    quote ("a+b@example.com") = "a%2Bb%40example.com" :=
  ⟨rfl, rfl, percentDecode_quote address, by decide⟩

/-- Claim C10: `poll_for_emails` never retries after an error: if every
check before `n` merely found no new mail and the `list_emails` call at
check `n` (still within the deadline) raises a `VanishError`, the poll
returns that error immediately — `.raised e n` records `n` completed
sleeps and none after — and the result is unchanged under any
modification of the transports after index `n`, i.e. no later
`list_emails` call is ever consulted. -/
theorem poll_error_propagation (transports : Nat → HttpRequest → HttpResult)
    (cfg : ClientConfig) (address : String) (timeout interval initial_count : Int)
    (n : Nat) (e : VanishError) (hi : 1 ≤ interval)
    (hcont : ∀ m, m < n → continuesPoll initial_count (pollCheck transports cfg address m))
    (hn : (n : Int) * interval < timeout)
    (he : pollCheck transports cfg address n = .err e) :
    poll_for_emails transports cfg address timeout interval initial_count =
      some (.raised e n) ∧
    (∀ transports2 : Nat → HttpRequest → HttpResult,
      (∀ m, m ≤ n → transports2 m = transports m) →
      poll_for_emails transports2 cfg address timeout interval initial_count =
        some (.raised e n)) := by
  constructor
  · rw [poll_for_emails]
    exact pollAux_raises hi hcont hn he
  · intro transports2 hagree
    have hsame : ∀ m, m ≤ n → pollCheck transports2 cfg address m =
        pollCheck transports cfg address m := by
      intro m hm
      rw [pollCheck, pollCheck, hagree m hm]
    rw [poll_for_emails]
    exact pollAux_raises hi
      (fun m hm => (hsame m (by omega)) ▸ hcont m hm)
      hn ((hsame n (Nat.le_refl n)) ▸ he)

/-- Witness for C10: a transport that refuses the connection on the very
first check makes the poll raise immediately, independently of what any
later transport would answer. -/
theorem poll_error_propagation_witness :
    poll_for_emails (fun _ => tConn) cfg0 ("a@b.io") 10 5 0 =
      some (.raised ⟨.str ("Connection error: Connection refused"), none⟩ 0) :=
  (poll_error_propagation (fun _ => tConn) cfg0 ("a@b.io") 10 5 0 0
    ⟨.str ("Connection error: Connection refused"), none⟩ (by norm_num)
    (fun m hm => absurd hm (Nat.not_lt_zero m)) (by norm_num) rfl).1
